import Mathlib

/-!
Verification of the Whalert price-alert monitor (`src/alert-monitor.ts` and the
`cancelAlert` tool in `src/tools/tokenPriceAlert.ts`).

The embedding models the durable alert store as the list of `PriceAlert`
records held in the `alerts` Map (insertion order, keyed by `id`), the
DexScreener lookup as an environment function `String → FetchOutcome`, and the
Telegram send as an environment predicate `String → Bool` on alert ids
(`true` = `bot.api.sendMessage` resolves, `false` = it throws).

JavaScript arithmetic on the percent-change path can divide by zero, which in
JS produces `Infinity`/`-Infinity`/`NaN`; the small `JSNum` type captures
exactly the IEEE-754 behaviour of the expressions the source evaluates.
-/

/-- Alert kinds, from the `alertType` union in `src/alert-monitor.ts`. -/
inductive AlertType where
  | price_above
  | price_below
  | percent_change
deriving DecidableEq, Repr

/-- The persisted alert record (`interface PriceAlert` in
`src/alert-monitor.ts`).  Numeric JS fields are modelled as exact rationals;
`chatId`/`createdAt` as integers. -/
structure PriceAlert where
  id : String
  chatId : Int
  tokenAddress : String
  tokenSymbol : String
  tokenName : String
  chainId : String
  pairAddress : String
  alertType : AlertType
  targetValue : ℚ
  currentPrice : ℚ
  createdAt : Int
  lastChecked : Option Int := none
deriving DecidableEq, Repr

/-- Outcome of one DexScreener fetch for a pair address, covering the branches
of `checkAlerts`: non-ok HTTP status, ok response with no pairs, a thrown
exception, or a successful response whose first pair parses to `price`. -/
inductive FetchOutcome where
  | httpError (status : Nat)
  | noPairs
  | exn
  | ok (price : ℚ)
deriving DecidableEq, Repr

/-- A JavaScript number as produced by the arithmetic in the monitor: either a
finite value (modelled exactly as a rational), an infinity, or `NaN`. -/
inductive JSNum where
  | fin (q : ℚ)
  | posInf
  | negInf
  | nan
deriving DecidableEq, Repr

/-- JS subtraction (IEEE 754).  Only finite inputs occur in the monitor, the
other cases follow IEEE for totality. -/
def JSNum.sub : JSNum → JSNum → JSNum
  | .nan, _ => .nan
  | .fin _, .nan => .nan
  | .posInf, .nan => .nan
  | .negInf, .nan => .nan
  | .fin a, .fin b => .fin (a - b)
  | .fin _, .posInf => .negInf
  | .fin _, .negInf => .posInf
  | .posInf, .fin _ => .posInf
  | .posInf, .posInf => .nan
  | .posInf, .negInf => .posInf
  | .negInf, .fin _ => .negInf
  | .negInf, .posInf => .negInf
  | .negInf, .negInf => .nan

/-- JS division (IEEE 754).  A finite numerator over the literal zero behaves
as division by `+0`: positive numerator gives `Infinity`, negative gives
`-Infinity`, zero gives `NaN`.  Signed zeros are collapsed to `0`, which is
indistinguishable under the comparisons the monitor performs. -/
def JSNum.div : JSNum → JSNum → JSNum
  | .nan, _ => .nan
  | .fin _, .nan => .nan
  | .posInf, .nan => .nan
  | .negInf, .nan => .nan
  | .fin a, .fin b =>
      if b ≠ 0 then .fin (a / b)
      else if 0 < a then .posInf
      else if a < 0 then .negInf
      else .nan
  | .fin _, .posInf => .fin 0
  | .fin _, .negInf => .fin 0
  | .posInf, .fin b => if 0 ≤ b then .posInf else .negInf
  | .negInf, .fin b => if 0 ≤ b then .negInf else .posInf
  | .posInf, .posInf => .nan
  | .posInf, .negInf => .nan
  | .negInf, .posInf => .nan
  | .negInf, .negInf => .nan

/-- JS multiplication (IEEE 754). -/
def JSNum.mul : JSNum → JSNum → JSNum
  | .nan, _ => .nan
  | .fin _, .nan => .nan
  | .posInf, .nan => .nan
  | .negInf, .nan => .nan
  | .fin a, .fin b => .fin (a * b)
  | .posInf, .fin b => if 0 < b then .posInf else if b < 0 then .negInf else .nan
  | .fin a, .posInf => if 0 < a then .posInf else if a < 0 then .negInf else .nan
  | .negInf, .fin b => if 0 < b then .negInf else if b < 0 then .posInf else .nan
  | .fin a, .negInf => if 0 < a then .negInf else if a < 0 then .posInf else .nan
  | .posInf, .posInf => .posInf
  | .posInf, .negInf => .negInf
  | .negInf, .posInf => .negInf
  | .negInf, .negInf => .posInf

/-- JS `>=` comparison: `NaN` compares false against everything. -/
def JSNum.jsGe : JSNum → JSNum → Bool
  | .nan, _ => false
  | _, .nan => false
  | .posInf, _ => true
  | .negInf, .negInf => true
  | .negInf, _ => false
  | .fin _, .posInf => false
  | .fin _, .negInf => true
  | .fin a, .fin b => decide (b ≤ a)

/-- JS `<=` comparison: `NaN` compares false against everything. -/
def JSNum.jsLe : JSNum → JSNum → Bool
  | .nan, _ => false
  | _, .nan => false
  | .negInf, _ => true
  | .posInf, .posInf => true
  | .posInf, _ => false
  | .fin _, .negInf => false
  | .fin _, .posInf => true
  | .fin a, .fin b => decide (a ≤ b)

/-- The percent-change expression of `checkAlerts`:
`((currentPrice - alert.currentPrice) / alert.currentPrice) * 100`, evaluated
with JS semantics (so a zero reference price yields an infinity or `NaN`). -/
def percentChangeJS (currentPrice referencePrice : ℚ) : JSNum :=
  (((JSNum.fin currentPrice).sub (JSNum.fin referencePrice)).div
      (JSNum.fin referencePrice)).mul (JSNum.fin 100)

/-- The trigger decision of `checkAlerts` for one alert against the freshly
fetched price: `price_above` requires `currentPrice > targetValue` (strict),
`price_below` requires `currentPrice < targetValue` (strict), and
`percent_change` compares the JS percent change against the signed target
(`>= target` for a positive target, `<= target` for a negative one, no branch
for a zero target). -/
def shouldTrigger (alert : PriceAlert) (currentPrice : ℚ) : Bool :=
  match alert.alertType with
  | .price_above => decide (alert.targetValue < currentPrice)
  | .price_below => decide (currentPrice < alert.targetValue)
  | .percent_change =>
      let percentChange := percentChangeJS currentPrice alert.currentPrice
      if 0 < alert.targetValue then
        percentChange.jsGe (JSNum.fin alert.targetValue)
      else if alert.targetValue < 0 then
        percentChange.jsLe (JSNum.fin alert.targetValue)
      else
        false

/-- `removeAlert` of `TokenAlertMonitor`: `alertsMap.delete(alertId)` removes
the (at most one) entry stored under that id.  The store is the Map's value
list; since `addAlert` keys every record by its own `id`, deletion erases the
first (and, for a well-formed store, only) record carrying that id. -/
def removeAlert (store : List PriceAlert) (alertId : String) : List PriceAlert :=
  store.eraseP (fun a => decide (a.id = alertId))

/-- `getAlertsForChat`: filter of the snapshot by `chatId`. -/
def getAlertsForChat (store : List PriceAlert) (chatId : Int) : List PriceAlert :=
  store.filter (fun a => decide (a.chatId = chatId))

/-- One step of the pair-batching loop: `pairMap.get(pairAddress) || []`, push
the alert, `pairMap.set(...)`.  A JS `Map.set` on an existing key updates the
value in place; a new key is appended at the end. -/
def updateBucket : List (String × List PriceAlert) → PriceAlert →
    List (String × List PriceAlert)
  | [], a => [(a.pairAddress, [a])]
  | (k, g) :: rest, a =>
      if k = a.pairAddress then (k, g ++ [a]) :: rest
      else (k, g) :: updateBucket rest a

/-- The `pairMap` built by `checkAlerts` (and by the `myalerts` command):
alerts grouped by `pairAddress`, groups in first-seen key order, alerts of a
group in snapshot order. -/
def buildPairMap (alerts : List PriceAlert) : List (String × List PriceAlert) :=
  alerts.foldl updateBucket []

/-- Observable state threaded through one monitoring cycle: the store plus the
lists of lookup calls issued, of alert ids whose notification was delivered
(each followed by removal), and of alert ids whose notification send threw
(logged via `console.error`). -/
structure CycleState where
  store : List PriceAlert
  lookups : List String
  sent : List String
  sendFailures : List String
deriving DecidableEq, Repr

/-- Body of the per-alert loop of `checkAlerts` for a group whose fetch
succeeded with `price`: evaluate the alert; on trigger attempt the Telegram
send, and only when the send resolves reach `removeAlert`; when the send
throws, the `catch` logs and the alert is left in the store. -/
def processAlert (sendOk : String → Bool) (price : ℚ) (st : CycleState)
    (alert : PriceAlert) : CycleState :=
  if shouldTrigger alert price then
    if sendOk alert.id then
      { st with
        store := removeAlert st.store alert.id
        sent := st.sent ++ [alert.id] }
    else
      { st with sendFailures := st.sendFailures ++ [alert.id] }
  else st

/-- Body of the per-group loop of `checkAlerts`: one fetch for the group's
pair address; on HTTP error / empty pairs the group is skipped (`continue`),
on a thrown exception the `catch` swallows it; on success every alert of the
group is evaluated against the parsed price. -/
def processGroup (fetchEnv : String → FetchOutcome) (sendOk : String → Bool)
    (st : CycleState) (grp : String × List PriceAlert) : CycleState :=
  let st1 := { st with lookups := st.lookups ++ [grp.1] }
  match fetchEnv grp.1 with
  | .ok price => grp.2.foldl (processAlert sendOk price) st1
  | _ => st1

/-- `checkAlerts`: snapshot the store, return immediately when empty,
otherwise batch by pair address and process each group in order. -/
def checkAlerts (store : List PriceAlert) (fetchEnv : String → FetchOutcome)
    (sendOk : String → Bool) : CycleState :=
  if store.isEmpty then
    { store := store, lookups := [], sent := [], sendFailures := [] }
  else
    (buildPairMap store).foldl (processGroup fetchEnv sendOk)
      { store := store, lookups := [], sent := [], sendFailures := [] }

/-- The condition under which one cycle retires an alert: its group's fetch
succeeded, the alert triggered against the fetched price, and the Telegram
send resolved. -/
def removedCond (fetchEnv : String → FetchOutcome) (sendOk : String → Bool)
    (a : PriceAlert) : Bool :=
  match fetchEnv a.pairAddress with
  | .ok price => shouldTrigger a price && sendOk a.id
  | _ => false

/-- Display helper modelling `Number.prototype.toFixed(digits)` on an exact
rational: round half away from zero at `digits` decimal places and render with
exactly `digits` fractional digits.  Display-only; no claim depends on the
digit strings it produces. -/
def toFixedQ (digits : Nat) (q : ℚ) : String :=
  let scaled : ℚ := q * (10 : ℚ) ^ digits
  let n : Int := if 0 ≤ scaled then ⌊scaled + 1/2⌋ else -⌊(-scaled) + 1/2⌋
  let sign := if n < 0 then "-" else ""
  let m := n.natAbs
  let ip := m / 10 ^ digits
  let fp := m % 10 ^ digits
  let fpStr := toString fp
  let pad := String.mk (List.replicate (digits - fpStr.length) '0')
  if digits = 0 then sign ++ toString ip
  else sign ++ toString ip ++ "." ++ pad ++ fpStr

/-- Display helper standing in for JS number-to-string interpolation
(`${alert.targetValue}` and the like) on an exact rational.  Display-only; no
claim depends on its exact digits. -/
def jsNumToString (q : ℚ) : String :=
  if q.den = 1 then toString q.num else toString q

/-- The per-alert line of the `/myalerts` reply (`alertsWithPrices.map` in
`setupTelegramWebhook`): the one-based index, token name/symbol, chain,
current price (8 decimals below one cent, else 2), and the condition text.
Note the line is a function of the alert and the price alone — it carries no
marker distinguishing a freshly fetched price from the stored fallback. -/
def formatAlertLine (index : Nat) (alert : PriceAlert) (currentPrice : ℚ) : String :=
  let condition :=
    match alert.alertType with
    | .price_above => "above $" ++ jsNumToString alert.targetValue
    | .price_below => "below $" ++ jsNumToString alert.targetValue
    | .percent_change =>
        (if 0 < alert.targetValue then "+" else "") ++
          jsNumToString alert.targetValue ++ "%"
  let priceFormatted :=
    if currentPrice < 1/100 then toFixedQ 8 currentPrice
    else toFixedQ 2 currentPrice
  toString (index + 1) ++ ". " ++ alert.tokenName ++ " (" ++
    alert.tokenSymbol ++ ")\n" ++
    "   Chain: " ++ alert.chainId.toUpper ++ "\n" ++
    "   Current: $" ++ priceFormatted ++ "\n" ++
    "   Alert: " ++ condition

/-- The enrichment step of the `/myalerts` command: filter the store by chat,
batch by pair address, and attach one price per group — the freshly fetched
price when the lookup succeeds, otherwise (`response` not ok, empty `pairs`,
or a thrown exception) each alert's stored `currentPrice` as fallback. -/
def myAlertsEntries (store : List PriceAlert) (chatId : Int)
    (fetchEnv : String → FetchOutcome) : List (PriceAlert × ℚ) :=
  (buildPairMap (getAlertsForChat store chatId)).flatMap fun grp =>
    match fetchEnv grp.1 with
    | .ok price => grp.2.map fun a => (a, price)
    | _ => grp.2.map fun a => (a, a.currentPrice)

/-- The final `/myalerts` reply text: the no-alert message when the chat has
no alerts, otherwise the header plus the formatted entry list. -/
def myAlertsReply (store : List PriceAlert) (chatId : Int)
    (fetchEnv : String → FetchOutcome) : String :=
  if (getAlertsForChat store chatId).isEmpty then
    "You currently have no active price alerts configured."
  else
    let entries := myAlertsEntries store chatId fetchEnv
    let body := String.intercalate "\n\n"
      (entries.enum.map fun p => formatAlertLine p.1 p.2.1 p.2.2)
    "*Active Price Alerts* (" ++ toString entries.length ++ ")\n\n" ++ body

/-- The `cancelAlert` tool (`src/tools/tokenPriceAlert.ts`): it runs
`const alert = await alertMonitor.removeAlert(alertId)`.  `removeAlert` is
`Promise<void>`, so the deletion happens but `alert` is always `undefined`
(modelled as `none`); the tool then branches on it.  Returns the store after
the call together with the reply text. -/
def cancelAlert (store : List PriceAlert) (alertId : String) :
    List PriceAlert × String :=
  let store1 := removeAlert store alertId
  let alert? : Option PriceAlert := none
  match alert? with
  | none =>
      (store1, "Alert " ++ alertId ++ " could not be located. It may have " ++
        "already been triggered or previously canceled.")
  | some alert =>
      (store1, "Alert " ++ alertId ++ " for " ++ alert.tokenSymbol ++
        " has been successfully canceled. Price monitoring has been " ++
        "stopped for this token.")

/-- A sample above-type alert used by concrete witnesses. -/
def sampleAbove : PriceAlert :=
  { id := "alert_1"
    chatId := 42
    tokenAddress := "0xtoken1"
    tokenSymbol := "TKA"
    tokenName := "Token A"
    chainId := "ethereum"
    pairAddress := "0xpair1"
    alertType := .price_above
    targetValue := 100
    currentPrice := 90
    createdAt := 1700000000 }

/-- A sample below-type alert on a second pair, used by concrete witnesses. -/
def sampleBelow : PriceAlert :=
  { id := "alert_2"
    chatId := 42
    tokenAddress := "0xtoken2"
    tokenSymbol := "TKB"
    tokenName := "Token B"
    chainId := "bsc"
    pairAddress := "0xpair2"
    alertType := .price_below
    targetValue := 50
    currentPrice := 60
    createdAt := 1700000001 }

/-- A sample percent-change alert whose stored reference price is zero. -/
def sampleZeroRef : PriceAlert :=
  { id := "alert_3"
    chatId := 42
    tokenAddress := "0xtoken3"
    tokenSymbol := "TKC"
    tokenName := "Token C"
    chainId := "ethereum"
    pairAddress := "0xpair3"
    alertType := .percent_change
    targetValue := 10
    currentPrice := 0
    createdAt := 1700000002 }

/-- A sample percent-change alert with the spec's §8 scenario-2 numbers:
threshold `-10`, reference price `50`. -/
def samplePct : PriceAlert :=
  { id := "alert_4"
    chatId := 42
    tokenAddress := "0xtoken4"
    tokenSymbol := "TKD"
    tokenName := "Token D"
    chainId := "ethereum"
    pairAddress := "0xpair4"
    alertType := .percent_change
    targetValue := -10
    currentPrice := 50
    createdAt := 1700000003 }

/-- Fetch environment returning price 200 for every pair. -/
def fetchAll200 : String → FetchOutcome := fun _ => .ok 200

/-- Fetch environment returning price 90 for every pair. -/
def fetchAll90 : String → FetchOutcome := fun _ => .ok 90

/-- Fetch environment in which every lookup throws. -/
def fetchAllFail : String → FetchOutcome := fun _ => .exn

/-- Fetch environment in which the lookup for `0xpair1` throws while every
other pair returns price 40. -/
def fetchPair1Fails : String → FetchOutcome :=
  fun k => if k = "0xpair1" then .exn else .ok 40

/-- Send environment in which every `sendMessage` throws. -/
def sendAlwaysFails : String → Bool := fun _ => false

/-- Send environment in which every `sendMessage` resolves. -/
def sendAlwaysOk : String → Bool := fun _ => true

/-- All alerts of a pair map, in group order. -/
def flattenGroups (m : List (String × List PriceAlert)) : List PriceAlert :=
  m.flatMap Prod.snd

/-- The flat list of (alert, fetched price) pairs one cycle evaluates: the
groups whose fetch succeeded, each alert paired with its group's price, in
processing order. -/
def flatProcess (fetchEnv : String → FetchOutcome)
    (groups : List (String × List PriceAlert)) : List (PriceAlert × ℚ) :=
  groups.flatMap fun grp =>
    match fetchEnv grp.1 with
    | .ok price => grp.2.map fun a => (a, price)
    | _ => []

/-- Condition for the delivered-notification (and removal) path of one
evaluated (alert, price) pair. -/
def sentCond (sendOk : String → Bool) (ap : PriceAlert × ℚ) : Bool :=
  shouldTrigger ap.1 ap.2 && sendOk ap.1.id

/-- Condition for the failed-notification (logged) path of one evaluated
(alert, price) pair. -/
def failCond (sendOk : String → Bool) (ap : PriceAlert × ℚ) : Bool :=
  shouldTrigger ap.1 ap.2 && !(sendOk ap.1.id)

/-- The effect of one evaluated (alert, price) pair on the store alone. -/
def storeStep (sendOk : String → Bool) (st : List PriceAlert)
    (ap : PriceAlert × ℚ) : List PriceAlert :=
  if sentCond sendOk ap then removeAlert st ap.1.id else st

/-- `c` evaluated at an alert's own fetch outcome: `false` when the fetch for
the alert's pair failed, otherwise `c` at the fetched price. -/
def condAtFetch (fetchEnv : String → FetchOutcome) (c : PriceAlert → ℚ → Bool)
    (a : PriceAlert) : Bool :=
  match fetchEnv a.pairAddress with
  | .ok price => c a price
  | _ => false

/-- Moving a single appended element past a trailing list is a permutation. -/
lemma perm_append_singleton_mid (a : PriceAlert) (x y : List PriceAlert) :
    List.Perm ((x ++ [a]) ++ y) ((x ++ y) ++ [a]) := by
  rw [List.append_assoc, List.append_assoc]
  exact List.Perm.append_left x List.perm_append_comm

/-- Inserting an alert into the pair map adds exactly that alert to the
flattened contents, up to permutation. -/
lemma flattenGroups_updateBucket (m : List (String × List PriceAlert))
    (a : PriceAlert) :
    List.Perm (flattenGroups (updateBucket m a)) (flattenGroups m ++ [a]) := by
  induction m with
  | nil => simp [updateBucket, flattenGroups]
  | cons kg rest ih =>
    obtain ⟨k, g⟩ := kg
    by_cases hk : k = a.pairAddress
    · simp only [updateBucket, if_pos hk, flattenGroups, List.flatMap_cons]
      exact perm_append_singleton_mid a g (rest.flatMap Prod.snd)
    · simp only [updateBucket, if_neg hk, flattenGroups, List.flatMap_cons]
      rw [List.append_assoc]
      simp only [flattenGroups] at ih
      exact List.Perm.append_left g ih

/-- Folding alerts into a pair map appends them to the flattened contents, up
to permutation. -/
lemma flattenGroups_foldl (l : List PriceAlert) :
    ∀ m, List.Perm (flattenGroups (l.foldl updateBucket m))
      (flattenGroups m ++ l) := by
  induction l with
  | nil => intro m; simp
  | cons a l ih =>
    intro m
    simp only [List.foldl_cons]
    refine (ih (updateBucket m a)).trans ?_
    refine (List.Perm.append_right l (flattenGroups_updateBucket m a)).trans ?_
    rw [List.append_assoc, List.singleton_append]

/-- The groups of `buildPairMap` contain exactly the input alerts. -/
lemma buildPairMap_perm (l : List PriceAlert) :
    List.Perm (flattenGroups (buildPairMap l)) l := by
  simpa [flattenGroups, buildPairMap] using flattenGroups_foldl l []

/-- Inserting preserves the invariant that every alert sits in the group of
its own pair address. -/
lemma updateBucket_key (a : PriceAlert) :
    ∀ m, (∀ kg ∈ m, ∀ b ∈ kg.2, b.pairAddress = kg.1) →
      ∀ kg ∈ updateBucket m a, ∀ b ∈ kg.2, b.pairAddress = kg.1 := by
  intro m
  induction m with
  | nil =>
    intro _ kg hkg b hb
    simp only [updateBucket, List.mem_singleton] at hkg
    subst hkg
    simp only [List.mem_singleton] at hb
    subst hb
    rfl
  | cons kg0 rest ih =>
    obtain ⟨k, g⟩ := kg0
    intro h kg hkg b hb
    by_cases hk : k = a.pairAddress
    · simp only [updateBucket, if_pos hk, List.mem_cons] at hkg
      rcases hkg with rfl | hkg
      · simp only [List.mem_append, List.mem_singleton] at hb
        rcases hb with hb | rfl
        · exact h (k, g) (List.mem_cons_self _ _) b hb
        · exact hk.symm
      · exact h kg (List.mem_cons_of_mem _ hkg) b hb
    · simp only [updateBucket, if_neg hk, List.mem_cons] at hkg
      rcases hkg with rfl | hkg
      · exact h (k, g) (List.mem_cons_self _ _) b hb
      · exact ih (fun kg' hkg' => h kg' (List.mem_cons_of_mem _ hkg')) kg hkg b hb

/-- Every alert of a `buildPairMap` group carries that group's pair address. -/
lemma buildPairMap_key (l : List PriceAlert) :
    ∀ kg ∈ buildPairMap l, ∀ b ∈ kg.2, b.pairAddress = kg.1 := by
  have main : ∀ (l' : List PriceAlert) m,
      (∀ kg ∈ m, ∀ b ∈ kg.2, b.pairAddress = kg.1) →
      ∀ kg ∈ l'.foldl updateBucket m, ∀ b ∈ kg.2, b.pairAddress = kg.1 := by
    intro l'
    induction l' with
    | nil => intro m h; simpa using h
    | cons a l' ih =>
      intro m h
      simp only [List.foldl_cons]
      exact ih (updateBucket m a) (updateBucket_key a m h)
  exact main l [] (by simp)

/-- Inserting an alert either leaves the key list unchanged (key already
present) or appends the new key at the end. -/
lemma keys_updateBucket (a : PriceAlert) :
    ∀ m : List (String × List PriceAlert),
      (updateBucket m a).map Prod.fst =
        if a.pairAddress ∈ m.map Prod.fst then m.map Prod.fst
        else m.map Prod.fst ++ [a.pairAddress] := by
  intro m
  induction m with
  | nil => simp [updateBucket]
  | cons kg0 rest ih =>
    obtain ⟨k, g⟩ := kg0
    by_cases hk : k = a.pairAddress
    · simp [updateBucket, hk]
    · have hne : ¬a.pairAddress = k := fun h => hk h.symm
      by_cases hmem : a.pairAddress ∈ rest.map Prod.fst
      · simp [updateBucket, hk, ih, hmem, hne]
      · simp [updateBucket, hk, ih, hmem, hne]

/-- Folding alerts into a pair map keeps the key list duplicate-free. -/
lemma foldl_keys_nodup (l : List PriceAlert) :
    ∀ m, (m.map Prod.fst).Nodup → ((l.foldl updateBucket m).map Prod.fst).Nodup := by
  induction l with
  | nil => intro m h; simpa using h
  | cons a l ih =>
    intro m h
    simp only [List.foldl_cons]
    refine ih (updateBucket m a) ?_
    rw [keys_updateBucket]
    by_cases hmem : a.pairAddress ∈ m.map Prod.fst
    · simpa [hmem] using h
    · simp [hmem, List.nodup_append, h]

/-- The keys of `buildPairMap` are pairwise distinct. -/
lemma buildPairMap_keys_nodup (l : List PriceAlert) :
    ((buildPairMap l).map Prod.fst).Nodup :=
  foldl_keys_nodup l [] (by simp)

/-- A key appears in the folded pair map iff it was already present or some
folded alert carries it. -/
lemma mem_keys_foldl (l : List PriceAlert) :
    ∀ m k, k ∈ (l.foldl updateBucket m).map Prod.fst ↔
      (k ∈ m.map Prod.fst ∨ ∃ a ∈ l, a.pairAddress = k) := by
  induction l with
  | nil => intro m k; simp
  | cons a l ih =>
    intro m k
    simp only [List.foldl_cons]
    rw [ih, keys_updateBucket]
    by_cases hmem : a.pairAddress ∈ m.map Prod.fst
    · rw [if_pos hmem]
      constructor
      · intro h
        rcases h with h | ⟨b, hb, rfl⟩
        · exact Or.inl h
        · exact Or.inr ⟨b, List.mem_cons_of_mem a hb, rfl⟩
      · intro h
        rcases h with h | ⟨b, hb, hbk⟩
        · exact Or.inl h
        · rcases List.mem_cons.mp hb with rfl | hb
          · exact Or.inl (hbk ▸ hmem)
          · exact Or.inr ⟨b, hb, hbk⟩
    · rw [if_neg hmem]
      constructor
      · intro h
        rcases h with h | ⟨b, hb, rfl⟩
        · rcases List.mem_append.mp h with h | h
          · exact Or.inl h
          · exact Or.inr ⟨a, List.mem_cons_self a l, (List.mem_singleton.mp h).symm⟩
        · exact Or.inr ⟨b, List.mem_cons_of_mem a hb, rfl⟩
      · intro h
        rcases h with h | ⟨b, hb, hbk⟩
        · exact Or.inl (List.mem_append.mpr (Or.inl h))
        · rcases List.mem_cons.mp hb with rfl | hb
          · exact Or.inl (List.mem_append.mpr (Or.inr (List.mem_singleton.mpr hbk.symm)))
          · exact Or.inr ⟨b, hb, hbk⟩

/-- A key appears in `buildPairMap l` iff some alert of `l` carries it. -/
lemma mem_keys_buildPairMap (l : List PriceAlert) (k : String) :
    k ∈ (buildPairMap l).map Prod.fst ↔ ∃ a ∈ l, a.pairAddress = k := by
  rw [buildPairMap, mem_keys_foldl]
  simp

/-- The per-alert loop step affects the store exactly as `storeStep`. -/
lemma processAlert_store (s : String → Bool) (p : ℚ) (st : CycleState)
    (a : PriceAlert) :
    (processAlert s p st a).store = storeStep s st.store (a, p) := by
  by_cases ht : shouldTrigger a p = true
  · by_cases hs : s a.id = true
    · simp [processAlert, storeStep, sentCond, ht, hs]
    · simp [processAlert, storeStep, sentCond, ht, hs]
  · simp [processAlert, storeStep, sentCond, ht]

/-- Store component of the per-alert loop over one ok group. -/
lemma foldl_processAlert_store (s : String → Bool) (p : ℚ)
    (g : List PriceAlert) :
    ∀ st, ((g.foldl (processAlert s p) st).store) =
      (g.map fun a => (a, p)).foldl (storeStep s) st.store := by
  induction g with
  | nil => intro st; simp
  | cons a g ih =>
    intro st
    simp only [List.foldl_cons, List.map_cons]
    rw [ih, processAlert_store]

/-- Store component of one group step. -/
lemma processGroup_store (f : String → FetchOutcome) (s : String → Bool)
    (st : CycleState) (grp : String × List PriceAlert) :
    (processGroup f s st grp).store =
      (flatProcess f [grp]).foldl (storeStep s) st.store := by
  cases hf : f grp.1 with
  | ok p => simp [processGroup, hf, flatProcess, foldl_processAlert_store]
  | httpError n => simp [processGroup, hf, flatProcess]
  | noPairs => simp [processGroup, hf, flatProcess]
  | exn => simp [processGroup, hf, flatProcess]

/-- `flatProcess` distributes over group concatenation. -/
lemma flatProcess_append (f : String → FetchOutcome)
    (g₁ g₂ : List (String × List PriceAlert)) :
    flatProcess f (g₁ ++ g₂) = flatProcess f g₁ ++ flatProcess f g₂ := by
  simp [flatProcess]

/-- Store component of the whole group loop. -/
lemma foldl_processGroup_store (f : String → FetchOutcome) (s : String → Bool)
    (groups : List (String × List PriceAlert)) :
    ∀ st, ((groups.foldl (processGroup f s) st).store) =
      (flatProcess f groups).foldl (storeStep s) st.store := by
  induction groups with
  | nil => intro st; simp [flatProcess]
  | cons grp groups ih =>
    intro st
    simp only [List.foldl_cons]
    rw [ih, processGroup_store]
    have : flatProcess f (grp :: groups) = flatProcess f [grp] ++ flatProcess f groups := by
      simpa using flatProcess_append f [grp] groups
    rw [this, List.foldl_append]

/-- Store component of a full cycle. -/
lemma checkAlerts_store (store : List PriceAlert) (f : String → FetchOutcome)
    (s : String → Bool) :
    (checkAlerts store f s).store =
      (flatProcess f (buildPairMap store)).foldl (storeStep s) store := by
  by_cases h : store.isEmpty
  · have h0 : store = [] := List.isEmpty_iff.mp h
    subst h0
    simp [checkAlerts, buildPairMap, flatProcess]
  · simp [checkAlerts, h, foldl_processGroup_store]

/-- The per-alert loop never records a lookup. -/
lemma foldl_processAlert_lookups (s : String → Bool) (p : ℚ)
    (g : List PriceAlert) :
    ∀ st, ((g.foldl (processAlert s p) st).lookups) = st.lookups := by
  induction g with
  | nil => intro st; simp
  | cons a g ih =>
    intro st
    simp only [List.foldl_cons]
    rw [ih]
    by_cases ht : shouldTrigger a p = true
    · by_cases hs : s a.id = true
      · simp [processAlert, ht, hs]
      · simp [processAlert, ht, hs]
    · simp [processAlert, ht]

/-- Each group step records exactly one lookup, for its own key. -/
lemma processGroup_lookups (f : String → FetchOutcome) (s : String → Bool)
    (st : CycleState) (grp : String × List PriceAlert) :
    (processGroup f s st grp).lookups = st.lookups ++ [grp.1] := by
  cases hf : f grp.1 with
  | ok p => simp [processGroup, hf, foldl_processAlert_lookups]
  | httpError n => simp [processGroup, hf]
  | noPairs => simp [processGroup, hf]
  | exn => simp [processGroup, hf]

/-- Lookup calls of the whole group loop: one per group, in order. -/
lemma foldl_processGroup_lookups (f : String → FetchOutcome) (s : String → Bool)
    (groups : List (String × List PriceAlert)) :
    ∀ st, ((groups.foldl (processGroup f s) st).lookups) =
      st.lookups ++ groups.map Prod.fst := by
  induction groups with
  | nil => intro st; simp
  | cons grp groups ih =>
    intro st
    simp only [List.foldl_cons, List.map_cons]
    rw [ih, processGroup_lookups, List.append_assoc, List.singleton_append]

/-- Lookup calls of a full cycle: exactly the pair-map keys. -/
lemma checkAlerts_lookups (store : List PriceAlert) (f : String → FetchOutcome)
    (s : String → Bool) :
    (checkAlerts store f s).lookups = (buildPairMap store).map Prod.fst := by
  by_cases h : store.isEmpty
  · have h0 : store = [] := List.isEmpty_iff.mp h
    subst h0
    simp [checkAlerts, buildPairMap]
  · simp [checkAlerts, h, foldl_processGroup_lookups]

/-- The per-alert loop appends the id to `sent` exactly when the alert
triggered and its send resolved. -/
lemma processAlert_sent (s : String → Bool) (p : ℚ) (st : CycleState)
    (a : PriceAlert) :
    (processAlert s p st a).sent =
      st.sent ++ (if sentCond s (a, p) then [a.id] else []) := by
  by_cases ht : shouldTrigger a p = true
  · by_cases hs : s a.id = true
    · simp [processAlert, sentCond, ht, hs]
    · simp [processAlert, sentCond, ht, hs]
  · simp [processAlert, sentCond, ht]

/-- Delivered notifications of the per-alert loop over one ok group. -/
lemma foldl_processAlert_sent (s : String → Bool) (p : ℚ)
    (g : List PriceAlert) :
    ∀ st, ((g.foldl (processAlert s p) st).sent) =
      st.sent ++ ((g.map fun a => (a, p)).filter (sentCond s)).map
        (fun ap => ap.1.id) := by
  induction g with
  | nil => intro st; simp
  | cons a g ih =>
    intro st
    simp only [List.foldl_cons, List.map_cons, List.filter_cons]
    rw [ih, processAlert_sent]
    by_cases hc : sentCond s (a, p) = true
    · simp [hc, List.append_assoc]
    · simp [hc]

/-- Delivered notifications of one group step. -/
lemma processGroup_sent (f : String → FetchOutcome) (s : String → Bool)
    (st : CycleState) (grp : String × List PriceAlert) :
    (processGroup f s st grp).sent =
      st.sent ++ ((flatProcess f [grp]).filter (sentCond s)).map
        (fun ap => ap.1.id) := by
  cases hf : f grp.1 with
  | ok p => simp [processGroup, hf, flatProcess, foldl_processAlert_sent]
  | httpError n => simp [processGroup, hf, flatProcess]
  | noPairs => simp [processGroup, hf, flatProcess]
  | exn => simp [processGroup, hf, flatProcess]

/-- Delivered notifications of the whole group loop. -/
lemma foldl_processGroup_sent (f : String → FetchOutcome) (s : String → Bool)
    (groups : List (String × List PriceAlert)) :
    ∀ st, ((groups.foldl (processGroup f s) st).sent) =
      st.sent ++ ((flatProcess f groups).filter (sentCond s)).map
        (fun ap => ap.1.id) := by
  induction groups with
  | nil => intro st; simp [flatProcess]
  | cons grp groups ih =>
    intro st
    simp only [List.foldl_cons]
    rw [ih, processGroup_sent]
    have : flatProcess f (grp :: groups) = flatProcess f [grp] ++ flatProcess f groups := by
      simpa using flatProcess_append f [grp] groups
    rw [this, List.filter_append, List.map_append, List.append_assoc]

/-- Delivered notifications of a full cycle. -/
lemma checkAlerts_sent (store : List PriceAlert) (f : String → FetchOutcome)
    (s : String → Bool) :
    (checkAlerts store f s).sent =
      ((flatProcess f (buildPairMap store)).filter (sentCond s)).map
        (fun ap => ap.1.id) := by
  by_cases h : store.isEmpty
  · have h0 : store = [] := List.isEmpty_iff.mp h
    subst h0
    simp [checkAlerts, buildPairMap, flatProcess]
  · simp [checkAlerts, h, foldl_processGroup_sent]

/-- The per-alert loop appends the id to `sendFailures` exactly when the alert
triggered and its send threw. -/
lemma processAlert_sendFailures (s : String → Bool) (p : ℚ) (st : CycleState)
    (a : PriceAlert) :
    (processAlert s p st a).sendFailures =
      st.sendFailures ++ (if failCond s (a, p) then [a.id] else []) := by
  by_cases ht : shouldTrigger a p = true
  · by_cases hs : s a.id = true
    · simp [processAlert, failCond, ht, hs]
    · simp [processAlert, failCond, ht, hs]
  · simp [processAlert, failCond, ht]

/-- Failed notifications of the per-alert loop over one ok group. -/
lemma foldl_processAlert_sendFailures (s : String → Bool) (p : ℚ)
    (g : List PriceAlert) :
    ∀ st, ((g.foldl (processAlert s p) st).sendFailures) =
      st.sendFailures ++ ((g.map fun a => (a, p)).filter (failCond s)).map
        (fun ap => ap.1.id) := by
  induction g with
  | nil => intro st; simp
  | cons a g ih =>
    intro st
    simp only [List.foldl_cons, List.map_cons, List.filter_cons]
    rw [ih, processAlert_sendFailures]
    by_cases hc : failCond s (a, p) = true
    · simp [hc, List.append_assoc]
    · simp [hc]

/-- Failed notifications of one group step. -/
lemma processGroup_sendFailures (f : String → FetchOutcome) (s : String → Bool)
    (st : CycleState) (grp : String × List PriceAlert) :
    (processGroup f s st grp).sendFailures =
      st.sendFailures ++ ((flatProcess f [grp]).filter (failCond s)).map
        (fun ap => ap.1.id) := by
  cases hf : f grp.1 with
  | ok p => simp [processGroup, hf, flatProcess, foldl_processAlert_sendFailures]
  | httpError n => simp [processGroup, hf, flatProcess]
  | noPairs => simp [processGroup, hf, flatProcess]
  | exn => simp [processGroup, hf, flatProcess]

/-- Failed notifications of the whole group loop. -/
lemma foldl_processGroup_sendFailures (f : String → FetchOutcome)
    (s : String → Bool) (groups : List (String × List PriceAlert)) :
    ∀ st, ((groups.foldl (processGroup f s) st).sendFailures) =
      st.sendFailures ++ ((flatProcess f groups).filter (failCond s)).map
        (fun ap => ap.1.id) := by
  induction groups with
  | nil => intro st; simp [flatProcess]
  | cons grp groups ih =>
    intro st
    simp only [List.foldl_cons]
    rw [ih, processGroup_sendFailures]
    have : flatProcess f (grp :: groups) = flatProcess f [grp] ++ flatProcess f groups := by
      simpa using flatProcess_append f [grp] groups
    rw [this, List.filter_append, List.map_append, List.append_assoc]

/-- Failed notifications of a full cycle. -/
lemma checkAlerts_sendFailures (store : List PriceAlert)
    (f : String → FetchOutcome) (s : String → Bool) :
    (checkAlerts store f s).sendFailures =
      ((flatProcess f (buildPairMap store)).filter (failCond s)).map
        (fun ap => ap.1.id) := by
  by_cases h : store.isEmpty
  · have h0 : store = [] := List.isEmpty_iff.mp h
    subst h0
    simp [checkAlerts, buildPairMap, flatProcess]
  · simp [checkAlerts, h, foldl_processGroup_sendFailures]

/-- On a store with pairwise-distinct ids, deleting by id is the same as
filtering that id out. -/
lemma removeAlert_eq_filter :
    ∀ (l : List PriceAlert), ((l.map fun a => a.id).Nodup) → ∀ i,
      removeAlert l i = l.filter (fun a => !(decide (a.id = i))) := by
  intro l
  induction l with
  | nil => intro _ i; simp [removeAlert]
  | cons a l ih =>
    intro h i
    have hh := h
    simp only [List.map_cons, List.nodup_cons] at hh
    obtain ⟨hnot, htail⟩ := hh
    by_cases ha : a.id = i
    · have hfil : l.filter (fun b => !(decide (b.id = i))) = l := by
        apply List.filter_eq_self.mpr
        intro b hb
        simp only [Bool.not_eq_true']
        apply decide_eq_false
        intro hbi
        exact hnot ((List.mem_map).mpr ⟨b, hb, hbi.trans ha.symm⟩)
      simp [removeAlert, List.eraseP_cons, ha, hfil]
    · have htl := ih htail i
      simp only [removeAlert] at htl
      simp [removeAlert, List.eraseP_cons, ha, List.filter_cons, htl]

/-- Folding the conditional removals of one cycle over a store with
pairwise-distinct ids filters out exactly the processed pairs whose send
condition held. -/
lemma foldl_storeStep_filter (s : String → Bool) :
    ∀ (Q : List (PriceAlert × ℚ)) (l : List PriceAlert),
      ((l.map fun a => a.id).Nodup) →
      Q.foldl (storeStep s) l =
        l.filter (fun a =>
          !(Q.any fun ap => sentCond s ap && decide (ap.1.id = a.id))) := by
  intro Q
  induction Q with
  | nil => intro l _; simp
  | cons ap Q ih =>
    intro l h
    simp only [List.foldl_cons]
    by_cases hc : sentCond s ap = true
    · have hstep : storeStep s l ap = l.filter (fun a => !(decide (a.id = ap.1.id))) := by
        rw [storeStep, if_pos hc]
        exact removeAlert_eq_filter l h ap.1.id
      have hnd2 : (((l.filter (fun a => !(decide (a.id = ap.1.id)))).map
          fun a => a.id).Nodup) :=
        h.sublist ((l.filter_sublist).map _)
      rw [hstep, ih _ hnd2, List.filter_filter]
      apply List.filter_congr
      intro a _
      simp only [List.any_cons, hc, Bool.true_and, Bool.not_or]
      have hsymm : decide (ap.1.id = a.id) = decide (a.id = ap.1.id) := by
        simp [eq_comm]
      rw [hsymm, Bool.and_comm]
    · have hstep : storeStep s l ap = l := by
        rw [storeStep, if_neg hc]
      rw [hstep, ih _ h]
      apply List.filter_congr
      intro a _
      simp only [List.any_cons, Bool.not_or]
      have : sentCond s ap = false := by
        cases hsc : sentCond s ap
        · rfl
        · exact absurd hsc hc
      simp [this]

/-- Membership in the flat processing list: the alert sits in a group whose
fetch succeeded with exactly the paired price. -/
lemma mem_flatProcess {f : String → FetchOutcome}
    {groups : List (String × List PriceAlert)} {ap : PriceAlert × ℚ} :
    ap ∈ flatProcess f groups ↔
      ∃ kg ∈ groups, ap.1 ∈ kg.2 ∧ f kg.1 = .ok ap.2 := by
  unfold flatProcess
  rw [List.mem_flatMap]
  constructor
  · rintro ⟨kg, hkg, hap⟩
    cases hf : f kg.1 with
    | ok p =>
      rw [hf] at hap
      rw [List.mem_map] at hap
      obtain ⟨b, hb, hbe⟩ := hap
      refine ⟨kg, hkg, ?_, ?_⟩
      · rw [← hbe]; exact hb
      · rw [← hbe, hf]
    | httpError n => rw [hf] at hap; simp at hap
    | noPairs => rw [hf] at hap; simp at hap
    | exn => rw [hf] at hap; simp at hap
  · rintro ⟨kg, hkg, hmem, hf⟩
    refine ⟨kg, hkg, ?_⟩
    rw [hf]
    rw [List.mem_map]
    exact ⟨ap.1, hmem, rfl⟩

/-- Two members of an id-nodup store with equal ids are one record. -/
lemma nodup_id_inj {l : List PriceAlert}
    (h : (l.map fun a => a.id).Nodup) {a b : PriceAlert}
    (ha : a ∈ l) (hb : b ∈ l) (hid : a.id = b.id) : a = b :=
  List.inj_on_of_nodup_map h ha hb hid

/-- Every store alert sits in some group of its pair map. -/
lemma mem_buildPairMap_self {l : List PriceAlert} {a : PriceAlert}
    (ha : a ∈ l) : ∃ kg ∈ buildPairMap l, a ∈ kg.2 := by
  have : a ∈ flattenGroups (buildPairMap l) := (buildPairMap_perm l).mem_iff.mpr ha
  rw [flattenGroups, List.mem_flatMap] at this
  exact this

/-- For a store alert `a`, scanning the flat processing list for a condition
at `a`'s id evaluates the condition at `a`'s own fetch outcome. -/
lemma any_flatProcess (f : String → FetchOutcome) (c : PriceAlert → ℚ → Bool)
    (l : List PriceAlert) (h : (l.map fun a => a.id).Nodup)
    (a : PriceAlert) (ha : a ∈ l) :
    ((flatProcess f (buildPairMap l)).any
        fun ap => c ap.1 ap.2 && decide (ap.1.id = a.id)) =
      condAtFetch f c a := by
  cases hC : condAtFetch f c a with
  | true =>
    cases hf : f a.pairAddress with
    | ok p =>
      have hcp : c a p = true := by
        have := hC
        rw [condAtFetch, hf] at this
        exact this
      obtain ⟨kg, hkg, hmem⟩ := mem_buildPairMap_self ha
      have hkey : a.pairAddress = kg.1 := buildPairMap_key l kg hkg a hmem
      rw [List.any_eq_true]
      refine ⟨(a, p), ?_, ?_⟩
      · exact mem_flatProcess.mpr ⟨kg, hkg, hmem, by rw [← hkey]; exact hf⟩
      · simp [hcp]
    | httpError n => rw [condAtFetch, hf] at hC; exact absurd hC (by simp)
    | noPairs => rw [condAtFetch, hf] at hC; exact absurd hC (by simp)
    | exn => rw [condAtFetch, hf] at hC; exact absurd hC (by simp)
  | false =>
    rw [List.any_eq_false]
    rintro ap hap
    obtain ⟨kg, hkg, hmem, hfk⟩ := mem_flatProcess.mp hap
    have hkey : ap.1.pairAddress = kg.1 := buildPairMap_key l kg hkg ap.1 hmem
    have hap1 : ap.1 ∈ l := (buildPairMap_perm l).subset (by
      unfold flattenGroups
      exact List.mem_flatMap.mpr ⟨kg, hkg, hmem⟩)
    intro hcontra
    rw [Bool.and_eq_true, decide_eq_true_eq] at hcontra
    obtain ⟨hcap, hid⟩ := hcontra
    have heq : ap.1 = a := nodup_id_inj h hap1 ha hid
    rw [heq] at hcap hkey
    rw [← hkey] at hfk
    have hC2 : c a ap.2 = false := by
      rw [condAtFetch, hfk] at hC
      exact hC
    rw [hcap] at hC2
    exact Bool.true_eq_false.mp hC2

/-- `removedCond` is the delivered-send condition at the alert's own fetch. -/
lemma removedCond_eq_condAtFetch (f : String → FetchOutcome)
    (s : String → Bool) (a : PriceAlert) :
    removedCond f s a =
      condAtFetch f (fun b p => shouldTrigger b p && s b.id) a := by
  cases hf : f a.pairAddress with
  | ok p => rw [removedCond, condAtFetch, hf]
  | httpError n => rw [removedCond, condAtFetch, hf]
  | noPairs => rw [removedCond, condAtFetch, hf]
  | exn => rw [removedCond, condAtFetch, hf]

/-- After one cycle the store is the snapshot filtered by the negation of
`removedCond` (requires pairwise-distinct ids, the Map invariant). -/
lemma checkAlerts_store_filter (store : List PriceAlert)
    (f : String → FetchOutcome) (s : String → Bool)
    (h : (store.map fun a => a.id).Nodup) :
    (checkAlerts store f s).store =
      store.filter (fun a => !(removedCond f s a)) := by
  rw [checkAlerts_store, foldl_storeStep_filter s _ _ h]
  apply List.filter_congr
  intro a ha
  have hany := any_flatProcess f (fun b p => shouldTrigger b p && s b.id)
    store h a ha
  have hsc : (fun ap : PriceAlert × ℚ => sentCond s ap && decide (ap.1.id = a.id)) =
      (fun ap : PriceAlert × ℚ =>
        (shouldTrigger ap.1 ap.2 && s ap.1.id) && decide (ap.1.id = a.id)) := rfl
  rw [hsc, hany, removedCond_eq_condAtFetch]

/-- Membership in the post-cycle store, for a snapshot alert. -/
lemma mem_checkAlerts_store (store : List PriceAlert)
    (f : String → FetchOutcome) (s : String → Bool) (a : PriceAlert)
    (h : (store.map fun x => x.id).Nodup) (ha : a ∈ store) :
    a ∈ (checkAlerts store f s).store ↔ removedCond f s a = false := by
  rw [checkAlerts_store_filter store f s h]
  rw [List.mem_filter]
  simp [ha, Bool.not_eq_true']

/-- Membership of a snapshot alert's id in the delivered-notification list. -/
lemma mem_checkAlerts_sent (store : List PriceAlert)
    (f : String → FetchOutcome) (s : String → Bool) (a : PriceAlert)
    (h : (store.map fun x => x.id).Nodup) (ha : a ∈ store) :
    a.id ∈ (checkAlerts store f s).sent ↔
      condAtFetch f (fun b p => shouldTrigger b p && s b.id) a = true := by
  have hany := any_flatProcess f (fun b p => shouldTrigger b p && s b.id)
    store h a ha
  rw [checkAlerts_sent, ← hany, List.any_eq_true]
  simp only [List.mem_map, List.mem_filter, sentCond, Bool.and_eq_true,
    decide_eq_true_eq]
  constructor
  · rintro ⟨ap, ⟨hap, hcond⟩, hid⟩
    exact ⟨ap, hap, ⟨hcond, hid⟩⟩
  · rintro ⟨ap, hap, ⟨hcond, hid⟩⟩
    exact ⟨ap, ⟨hap, hcond⟩, hid⟩

/-- Membership of a snapshot alert's id in the failed-notification log. -/
lemma mem_checkAlerts_sendFailures (store : List PriceAlert)
    (f : String → FetchOutcome) (s : String → Bool) (a : PriceAlert)
    (h : (store.map fun x => x.id).Nodup) (ha : a ∈ store) :
    a.id ∈ (checkAlerts store f s).sendFailures ↔
      condAtFetch f (fun b p => shouldTrigger b p && !(s b.id)) a = true := by
  have hany := any_flatProcess f (fun b p => shouldTrigger b p && !(s b.id))
    store h a ha
  rw [checkAlerts_sendFailures, ← hany, List.any_eq_true]
  simp only [List.mem_map, List.mem_filter, failCond, Bool.and_eq_true,
    decide_eq_true_eq]
  constructor
  · rintro ⟨ap, ⟨hap, hcond⟩, hid⟩
    exact ⟨ap, hap, ⟨hcond, hid⟩⟩
  · rintro ⟨ap, hap, ⟨hcond, hid⟩⟩
    exact ⟨ap, ⟨hap, hcond⟩, hid⟩

/-- Each fold step of the cycle only ever shrinks the store. -/
lemma foldl_storeStep_sublist (s : String → Bool) :
    ∀ (Q : List (PriceAlert × ℚ)) (l : List PriceAlert),
      List.Sublist (Q.foldl (storeStep s) l) l := by
  intro Q
  induction Q with
  | nil => intro l; exact List.Sublist.refl l
  | cons ap Q ih =>
    intro l
    simp only [List.foldl_cons]
    refine (ih (storeStep s l ap)).trans ?_
    by_cases hc : sentCond s ap = true
    · rw [storeStep, if_pos hc]
      exact List.eraseP_sublist l
    · rw [storeStep, if_neg hc]

/-- With a nonzero reference price the JS percent change is the finite exact
rational `(p - r) / r * 100`. -/
lemma percentChangeJS_of_ref_ne_zero (p r : ℚ) (hr : r ≠ 0) :
    percentChangeJS p r = JSNum.fin ((p - r) / r * 100) := by
  simp [percentChangeJS, JSNum.sub, JSNum.div, JSNum.mul, hr]

/-- With a zero reference price the JS percent change is an infinity of the
sign of the current price, or `NaN` at zero. -/
lemma percentChangeJS_zero_ref (p : ℚ) :
    percentChangeJS p 0 =
      (if 0 < p then JSNum.posInf
       else if p < 0 then JSNum.negInf else JSNum.nan) := by
  rcases lt_trichotomy 0 p with hp | hp | hp
  · have h1 : ¬p < 0 := not_lt.mpr hp.le
    norm_num [percentChangeJS, JSNum.sub, JSNum.div, JSNum.mul, hp, h1]
  · subst hp
    norm_num [percentChangeJS, JSNum.sub, JSNum.div, JSNum.mul]
  · have h1 : ¬(0 : ℚ) < p := not_lt.mpr hp.le
    norm_num [percentChangeJS, JSNum.sub, JSNum.div, JSNum.mul, hp, h1]

/-- Claim C5: an `above` alert triggers iff the fetched price is strictly
greater than the target, a `below` alert iff it is strictly smaller, and at
exact equality neither kind triggers. -/
theorem above_below_trigger_iff_strict (a : PriceAlert) (p : ℚ) :
    (a.alertType = .price_above →
      (shouldTrigger a p = true ↔ a.targetValue < p)) ∧
    (a.alertType = .price_below →
      (shouldTrigger a p = true ↔ p < a.targetValue)) ∧
    ((a.alertType = .price_above ∨ a.alertType = .price_below) →
      p = a.targetValue → shouldTrigger a p = false) := by
  refine ⟨?_, ?_, ?_⟩
  · intro ht
    simp [shouldTrigger, ht]
  · intro ht
    simp [shouldTrigger, ht]
  · rintro (ht | ht) rfl
    · simp [shouldTrigger, ht]
    · simp [shouldTrigger, ht]

/-- Witness for C5 at concrete inputs: price 101 beats an above-target of
100, price 49 undercuts a below-target of 50, and equality does not fire. -/
theorem above_below_trigger_iff_strict_witness :
    shouldTrigger sampleAbove 101 = true ∧
    shouldTrigger sampleBelow 49 = true ∧
    shouldTrigger sampleAbove 100 = false := by
  refine ⟨?_, ?_, ?_⟩
  · exact ((above_below_trigger_iff_strict sampleAbove 101).1 rfl).mpr (by norm_num [sampleAbove])
  · exact ((above_below_trigger_iff_strict sampleBelow 49).2.1 rfl).mpr (by norm_num [sampleBelow])
  · exact (above_below_trigger_iff_strict sampleAbove 100).2.2 (Or.inl rfl) rfl

/-- Claim C6: for a `percentChange` alert with nonzero reference price and
`pct = (currentPrice - referencePrice) / referencePrice * 100`, a positive
target triggers iff `pct >= target`, a negative target iff `pct <= target`,
and a zero target never triggers. -/
theorem percent_change_trigger_iff (a : PriceAlert) (p : ℚ)
    (ht : a.alertType = .percent_change) (hr : a.currentPrice ≠ 0) :
    (0 < a.targetValue →
      (shouldTrigger a p = true ↔
        a.targetValue ≤ (p - a.currentPrice) / a.currentPrice * 100)) ∧
    (a.targetValue < 0 →
      (shouldTrigger a p = true ↔
        (p - a.currentPrice) / a.currentPrice * 100 ≤ a.targetValue)) ∧
    (a.targetValue = 0 → shouldTrigger a p = false) := by
  have hpc := percentChangeJS_of_ref_ne_zero p a.currentPrice hr
  refine ⟨?_, ?_, ?_⟩
  · intro h
    simp [shouldTrigger, ht, hpc, h, JSNum.jsGe]
  · intro h
    have h' : ¬(0 < a.targetValue) := not_lt.mpr h.le
    simp [shouldTrigger, ht, hpc, h, h', JSNum.jsLe]
  · intro h
    simp [shouldTrigger, ht, h]

/-- Witness for C6 at the spec's scenario: reference 50, threshold -10,
price 44 is a 12% drop and triggers. -/
theorem percent_change_trigger_iff_witness :
    shouldTrigger samplePct 44 = true := by
  have h := percent_change_trigger_iff samplePct 44 rfl (by norm_num [samplePct])
  exact (h.2.1 (by norm_num [samplePct])).mpr (by norm_num [samplePct])

/-- Claim C9: a cycle over an empty store issues no lookups, performs no
mutation, sends nothing, and returns at once. -/
theorem empty_store_cycle_noop (f : String → FetchOutcome) (s : String → Bool) :
    checkAlerts [] f s =
      { store := [], lookups := [], sent := [], sendFailures := [] } := rfl

/-- Claim C10: a cycle only deletes: the post-cycle store is a subsequence of
the snapshot (so surviving records keep every field unchanged and nothing is
ever inserted), and likewise for the id list. -/
theorem cycle_only_deletes (store : List PriceAlert)
    (f : String → FetchOutcome) (s : String → Bool) :
    List.Sublist (checkAlerts store f s).store store ∧
    List.Sublist ((checkAlerts store f s).store.map fun a => a.id)
      (store.map fun a => a.id) := by
  have h : List.Sublist (checkAlerts store f s).store store := by
    rw [checkAlerts_store]
    exact foldl_storeStep_sublist s _ store
  exact ⟨h, h.map _⟩

/-- Claim C7: the cycle's lookup calls are exactly the pair-map keys, and
each pair address shared by any number of stored alerts is looked up exactly
once (zero times when no alert carries it). -/
theorem one_lookup_per_unique_pair (store : List PriceAlert)
    (f : String → FetchOutcome) (s : String → Bool) (k : String) :
    (checkAlerts store f s).lookups = (buildPairMap store).map Prod.fst ∧
    (checkAlerts store f s).lookups.count k =
      (if ∃ a ∈ store, a.pairAddress = k then 1 else 0) := by
  refine ⟨checkAlerts_lookups store f s, ?_⟩
  rw [checkAlerts_lookups]
  by_cases hex : ∃ a ∈ store, a.pairAddress = k
  · rw [if_pos hex]
    exact List.count_eq_one_of_mem (buildPairMap_keys_nodup store)
      ((mem_keys_buildPairMap store k).mpr hex)
  · rw [if_neg hex]
    exact List.count_eq_zero.mpr
      (fun hmem => hex ((mem_keys_buildPairMap store k).mp hmem))

/-- Claim C3 counterexample: the evaluator has no zero-reference defence.  A
`percentChange` alert with reference price 0 and target +10 evaluated at
current price 5 computes `(5 - 0) / 0 * 100 = Infinity` in JS, and
`Infinity >= 10` holds, so the alert triggers — the claim says it never
does. -/
theorem zero_reference_percent_alert_triggers :
    shouldTrigger sampleZeroRef 5 = true := by
  norm_num [shouldTrigger, sampleZeroRef, percentChangeJS, JSNum.sub,
    JSNum.div, JSNum.mul, JSNum.jsGe]

/-- Claim C3 amended: with a zero reference price the `percentChange`
evaluator is not defended — via JS division by zero, a positive target
triggers exactly when the current price is positive, a negative target
exactly when it is negative, and a zero target never. -/
theorem zero_reference_percent_alert_behaviour (a : PriceAlert) (p : ℚ)
    (htype : a.alertType = .percent_change) (href : a.currentPrice = 0) :
    shouldTrigger a p =
      (if 0 < a.targetValue then decide (0 < p)
       else if a.targetValue < 0 then decide (p < 0) else false) := by
  have hpc := percentChangeJS_zero_ref p
  rcases lt_trichotomy 0 p with hp | hp | hp
  · have h1 : ¬p < 0 := not_lt.mpr hp.le
    simp [shouldTrigger, htype, href, hpc, hp, h1, JSNum.jsGe, JSNum.jsLe]
  · subst hp
    simp [shouldTrigger, htype, href, hpc, JSNum.jsGe, JSNum.jsLe]
  · have h1 : ¬(0 : ℚ) < p := not_lt.mpr hp.le
    simp [shouldTrigger, htype, href, hpc, hp, h1, JSNum.jsGe, JSNum.jsLe]

/-- Witness for the amended C3 at a concrete input: target +10, reference 0,
current price 7 triggers because the computed percent change is `Infinity`. -/
theorem zero_reference_percent_alert_behaviour_witness :
    shouldTrigger sampleZeroRef 7 = true := by
  rw [zero_reference_percent_alert_behaviour sampleZeroRef 7 rfl rfl]
  norm_num [sampleZeroRef]

/-- Claim C1 counterexample: in a cycle where the single stored alert
triggers (above 100, fetched 200) but the Telegram send throws, the alert is
NOT removed — it is still in the store after the cycle, contradicting
"the alert is still removed from the store … regardless of whether its
notification send succeeded or failed".  In the source, `removeAlert` sits
after `await bot.api.sendMessage` inside the same `try`, so a thrown send
skips it. -/
theorem notification_failure_alert_not_removed :
    shouldTrigger sampleAbove 200 = true ∧
    (checkAlerts [sampleAbove] fetchAll200 sendAlwaysFails).store =
      [sampleAbove] ∧
    (checkAlerts [sampleAbove] fetchAll200 sendAlwaysFails).sendFailures =
      ["alert_1"] := by
  refine ⟨by decide, by decide, by decide⟩

/-- Claim C1 amended: when a triggered alert's notification send fails, the
failure is logged and the alert REMAINS in the store; it is removed exactly
when the send succeeds (so delivery is retried next cycle — at-least-once,
not at-most-once). -/
theorem triggered_alert_removed_iff_send_succeeded (store : List PriceAlert)
    (f : String → FetchOutcome) (s : String → Bool) (a : PriceAlert) (p : ℚ)
    (hnd : (store.map fun x => x.id).Nodup) (ha : a ∈ store)
    (hok : f a.pairAddress = .ok p) (htr : shouldTrigger a p = true) :
    (a ∈ (checkAlerts store f s).store ↔ s a.id = false) ∧
    (s a.id = false → a.id ∈ (checkAlerts store f s).sendFailures) ∧
    (s a.id = true → a.id ∈ (checkAlerts store f s).sent) := by
  have hrem : removedCond f s a = (shouldTrigger a p && s a.id) := by
    rw [removedCond, hok]
  refine ⟨?_, ?_, ?_⟩
  · rw [mem_checkAlerts_store store f s a hnd ha, hrem, htr]
    simp
  · intro hs
    rw [mem_checkAlerts_sendFailures store f s a hnd ha, condAtFetch, hok]
    simp [htr, hs]
  · intro hs
    rw [mem_checkAlerts_sent store f s a hnd ha, condAtFetch, hok]
    simp [htr, hs]

/-- Witness for the amended C1: with the send throwing, the triggered alert
survives the cycle and its failure is logged; the hypotheses are discharged
at the concrete one-alert store. -/
theorem triggered_alert_removed_iff_send_succeeded_witness :
    sampleAbove ∈ (checkAlerts [sampleAbove] fetchAll200 sendAlwaysFails).store ∧
    "alert_1" ∈ (checkAlerts [sampleAbove] fetchAll200 sendAlwaysFails).sendFailures := by
  have h := triggered_alert_removed_iff_send_succeeded [sampleAbove]
    fetchAll200 sendAlwaysFails sampleAbove 200 (by decide) (by simp)
    rfl (by decide)
  exact ⟨h.1.mpr rfl, h.2.1 rfl⟩

/-- Claim C8: when the lookup for one pair address fails (HTTP error, empty
result, or thrown exception), every snapshot alert of that group survives the
cycle untouched, while alerts of any other group whose lookup succeeded are
still evaluated normally in the same cycle: such an alert leaves the store
exactly when it triggers and its send resolves, and its delivery is recorded. -/
theorem lookup_failure_isolation (store : List PriceAlert)
    (f : String → FetchOutcome) (s : String → Bool) (kA : String)
    (hnd : (store.map fun x => x.id).Nodup)
    (hfail : ∀ p, f kA ≠ FetchOutcome.ok p) :
    (∀ a ∈ store, a.pairAddress = kA → a ∈ (checkAlerts store f s).store) ∧
    (∀ b ∈ store, ∀ p, b.pairAddress ≠ kA → f b.pairAddress = .ok p →
      ((b ∈ (checkAlerts store f s).store ↔
          ¬(shouldTrigger b p = true ∧ s b.id = true)) ∧
       (shouldTrigger b p = true → s b.id = true →
          b.id ∈ (checkAlerts store f s).sent))) := by
  constructor
  · intro a ha hk
    rw [mem_checkAlerts_store store f s a hnd ha]
    rw [removedCond]
    cases hf : f a.pairAddress with
    | ok p => exact absurd (hk ▸ hf) (hfail p)
    | httpError n => rfl
    | noPairs => rfl
    | exn => rfl
  · intro b hb p _ hok
    have hmc : removedCond f s b = (shouldTrigger b p && s b.id) := by
      rw [removedCond, hok]
    constructor
    · rw [mem_checkAlerts_store store f s b hnd hb, hmc]
      cases htr : shouldTrigger b p <;> cases hs : s b.id <;> simp
    · intro htr hs
      rw [mem_checkAlerts_sent store f s b hnd hb, condAtFetch, hok]
      simp [htr, hs]

/-- Witness for C8: with two alerts on different pairs, the lookup for the
first pair throwing and the second returning 40, the first alert survives
while the second (below 50) is characterised by its own evaluation. -/
theorem lookup_failure_isolation_witness :
    sampleAbove ∈
      (checkAlerts [sampleAbove, sampleBelow] fetchPair1Fails sendAlwaysOk).store ∧
    (sampleBelow ∈
        (checkAlerts [sampleAbove, sampleBelow] fetchPair1Fails sendAlwaysOk).store ↔
      ¬(shouldTrigger sampleBelow 40 = true ∧ sendAlwaysOk sampleBelow.id = true)) := by
  have h := lookup_failure_isolation [sampleAbove, sampleBelow]
    fetchPair1Fails sendAlwaysOk "0xpair1" (by decide)
    (by intro p hp; simp [fetchPair1Fails] at hp)
  refine ⟨h.1 sampleAbove (by simp) rfl, ?_⟩
  exact (h.2 sampleBelow (by simp) 40 (by decide) (by simp [fetchPair1Fails, sampleBelow])).1

/-- Claim C4 counterexample: with one stored alert for chat 42 and its price
lookup throwing, the `/myalerts` entry falls back to the stored price 90 and
the full reply text is byte-for-byte identical to the reply produced when the
lookup succeeds live at 90 — so the fallback is NOT labeled as stale in the
output, contradicting the claim. -/
theorem myalerts_fallback_not_labeled_stale :
    myAlertsEntries [sampleAbove] 42 fetchAllFail = [(sampleAbove, 90)] ∧
    myAlertsReply [sampleAbove] 42 fetchAllFail =
      myAlertsReply [sampleAbove] 42 fetchAll90 := by
  have he : myAlertsEntries [sampleAbove] 42 fetchAllFail =
      myAlertsEntries [sampleAbove] 42 fetchAll90 := by decide
  refine ⟨by decide, ?_⟩
  simp only [myAlertsReply, he]

/-- Claim C4 amended: the listing returns exactly the stored alerts of the
recipient (as a permutation, grouped by pair address), each entry carrying
the freshly fetched price of its unique pair when that lookup succeeded and
silently falling back to the alert's stored `currentPrice` when it failed —
with no stale label attached. -/
theorem myalerts_entries_characterisation (store : List PriceAlert)
    (c : Int) (f : String → FetchOutcome) :
    List.Perm ((myAlertsEntries store c f).map Prod.fst)
      (getAlertsForChat store c) ∧
    ∀ e ∈ myAlertsEntries store c f,
      (∀ p, f e.1.pairAddress = .ok p → e.2 = p) ∧
      ((∀ p, f e.1.pairAddress ≠ .ok p) → e.2 = e.1.currentPrice) := by
  constructor
  · have h1 : (myAlertsEntries store c f).map Prod.fst =
        flattenGroups (buildPairMap (getAlertsForChat store c)) := by
      unfold myAlertsEntries flattenGroups
      rw [List.map_flatMap]
      have hfun : ∀ kg : String × List PriceAlert,
          ((match f kg.1 with
            | .ok price => kg.2.map fun a => (a, price)
            | _ => kg.2.map fun a => (a, a.currentPrice)).map Prod.fst) = kg.2 := by
        intro kg
        cases hf : f kg.1 with
        | ok p =>
          simp only [List.map_map]
          exact List.map_id'' (fun x => rfl) kg.2
        | httpError n =>
          simp only [List.map_map]
          exact List.map_id'' (fun x => rfl) kg.2
        | noPairs =>
          simp only [List.map_map]
          exact List.map_id'' (fun x => rfl) kg.2
        | exn =>
          simp only [List.map_map]
          exact List.map_id'' (fun x => rfl) kg.2
      simp only [hfun]
    rw [h1]
    exact buildPairMap_perm _
  · intro e he
    unfold myAlertsEntries at he
    rw [List.mem_flatMap] at he
    obtain ⟨kg, hkg, he⟩ := he
    have hkey := buildPairMap_key (getAlertsForChat store c) kg hkg
    cases hf : f kg.1 with
    | ok p0 =>
      rw [hf] at he
      rw [List.mem_map] at he
      obtain ⟨b, hb, hbe⟩ := he
      have hpair : e.1.pairAddress = kg.1 := by
        rw [← hbe]
        exact hkey b hb
      constructor
      · intro p hp
        rw [hpair, hf] at hp
        have : p0 = p := by injection hp
        rw [← hbe, ← this]
      · intro hnone
        exact absurd (hpair ▸ hf : f e.1.pairAddress = .ok p0) (hnone p0)
    | httpError n =>
      rw [hf] at he
      rw [List.mem_map] at he
      obtain ⟨b, hb, hbe⟩ := he
      have hpair : e.1.pairAddress = kg.1 := by
        rw [← hbe]
        exact hkey b hb
      constructor
      · intro p hp
        rw [hpair, hf] at hp
        exact absurd hp (by simp)
      · intro _
        rw [← hbe]
    | noPairs =>
      rw [hf] at he
      rw [List.mem_map] at he
      obtain ⟨b, hb, hbe⟩ := he
      have hpair : e.1.pairAddress = kg.1 := by
        rw [← hbe]
        exact hkey b hb
      constructor
      · intro p hp
        rw [hpair, hf] at hp
        exact absurd hp (by simp)
      · intro _
        rw [← hbe]
    | exn =>
      rw [hf] at he
      rw [List.mem_map] at he
      obtain ⟨b, hb, hbe⟩ := he
      have hpair : e.1.pairAddress = kg.1 := by
        rw [← hbe]
        exact hkey b hb
      constructor
      · intro p hp
        rw [hpair, hf] at hp
        exact absurd hp (by simp)
      · intro _
        rw [← hbe]

/-- Witness for the amended C4: the single entry produced under a throwing
lookup is the stored alert paired with its stored price. -/
theorem myalerts_entries_characterisation_witness :
    ((sampleAbove, (90 : ℚ)) ∈ myAlertsEntries [sampleAbove] 42 fetchAllFail) ∧
    (90 : ℚ) = sampleAbove.currentPrice := by
  have hm : (sampleAbove, (90 : ℚ)) ∈ myAlertsEntries [sampleAbove] 42 fetchAllFail := by
    decide
  refine ⟨hm, ?_⟩
  exact ((myalerts_entries_characterisation [sampleAbove] 42 fetchAllFail).2
    (sampleAbove, (90 : ℚ)) hm).2 (fun p hp => FetchOutcome.noConfusion hp)

/-- Claim C2 (code bug): `cancelAlert` calls `alertMonitor.removeAlert(id)`,
whose return type is `Promise<void>`, and then branches on the returned
value.  The deletion does happen, but the returned value is always
`undefined`, so the FIRST cancel of a live alert already reports "could not
be located" instead of returning the removed record — the success branch
(with its confirmation message) is unreachable.  The second cancel behaves
identically. -/
theorem cancelAlert_reports_not_found_despite_removal :
    (cancelAlert [sampleAbove] "alert_1").1 = [] ∧
    (cancelAlert [sampleAbove] "alert_1").2 =
      "Alert alert_1 could not be located. It may have already been " ++
        "triggered or previously canceled." ∧
    cancelAlert [] "alert_1" =
      ([], "Alert alert_1 could not be located. It may have already been " ++
        "triggered or previously canceled.") := by
  refine ⟨by decide, rfl, rfl⟩
